import Mathlib

/-!
# appy: request normalisation and the client factory

A shallow embedding of `src/request.ts` (the `fetch` wrapper returning a
`Task<Either<AppyError, AppyResponse<mixed>>>`) and of `src/api/index.js`
(the client factory), followed by the properties proved about them.

Modelling conventions

* A JavaScript value of type `mixed` is a `JSValue`.  Numbers are the integer-valued
  ones; the text of one beyond the safe integers is left to the host.  Objects
  are plain objects, given by their own properties in insertion order.  No
  value is callable.
* A promise is modelled by its settlement: `Promise ε α` is either resolved
  with a value or rejected with a reason of type `ε`.
* The transport (`fetch`) is a collaborator.  Its behaviour is a field of
  `Env`; every call to it is recorded in an explicit call log, which is the
  state threaded by `Eff`.
* `JSON.parse` is a built-in of the host; it is a field of `Env` as well.
-/

namespace Appy

/-! ## JavaScript values -/

/-- A JavaScript value (`mixed`). -/
inductive JSValue where
  | undefined : JSValue
  | null : JSValue
  | bool (b : Bool) : JSValue
  | num (n : Int) : JSValue
  | str (s : String) : JSValue
  | arr (xs : List JSValue) : JSValue
  | obj (fields : List (String × JSValue)) : JSValue
  deriving Inhabited

/-- An `Error` object of the host. -/
structure JsError where
  name : String
  message : String
  deriving DecidableEq, Repr

namespace JSValue

/-- The operator `typeof`. -/
def typeof : JSValue → String
  | undefined => "undefined"
  | null => "object"
  | bool _ => "boolean"
  | num _ => "number"
  | str _ => "string"
  | arr _ => "object"
  | obj _ => "object"

/-- The test `s === null`. -/
def isNull : JSValue → Bool
  | null => true
  | _ => false

/-- The test `a == null`, true of `null` and of `undefined` only. -/
def isNullish : JSValue → Bool
  | undefined => true
  | null => true
  | _ => false

/-- Property read `o[k]` (also what destructuring `({k}) => ...` binds): the own
property of a plain object, `undefined` when it is absent or when `o` is a
primitive or an array (none of the names read in this program exists there). -/
def getProp : JSValue → String → JSValue
  | obj fields, k =>
    match fields.find? (fun e => e.1 == k) with
    | some e => e.2
    | none => undefined
  | _, _ => undefined

/-- The text of a number: the decimal digits for a safe integer (magnitude below
`2^53`, where the shortest digits that read back as the number are all of them);
beyond that the host's `Number.prototype.toString` decides (shortest round-trip
digits, exponent form from `1e21`), which is the parameter `numberToString`. -/
def numberString (numberToString : Int → String) (n : Int) : String :=
  if n.natAbs < 9007199254740992 then toString n else numberToString n

/-- The `TypeError` of `OrdinaryToPrimitive` when neither `toString` nor `valueOf` gives a
primitive. -/
def cannotConvert : JsError :=
  ⟨"TypeError", "Cannot convert object to primitive value"⟩

mutual
/-- The conversion `String(x)`, which may throw.  A plain object takes `toString` from
`Object.prototype` and gives `[object Object]`, unless it has an own property
`toString`: no value of the model is callable, `valueOf` then gives back the
object itself (or is an own property that is not callable either), and the
conversion throws a `TypeError`. -/
def jsString (numberToString : Int → String) : JSValue → Except JsError String
  | undefined => pure "undefined"
  | null => pure "null"
  | bool true => pure "true"
  | bool false => pure "false"
  | num n => pure (numberString numberToString n)
  | str s => pure s
  | arr xs => joinElements numberToString xs
  | obj fields =>
    if fields.any (fun e => e.1 == "toString") then throw cannotConvert
    else pure "[object Object]"
/-- The conversion `Array.prototype.join` with the default separator, which is what
`String` does on an array: the elements are converted in order, and the first
conversion that throws ends the whole. -/
def joinElements (numberToString : Int → String) : List JSValue → Except JsError String
  | [] => pure ""
  | [x] => elementString numberToString x
  | x :: y :: rest => do
    let first ← elementString numberToString x
    let others ← joinElements numberToString (y :: rest)
    pure (first ++ "," ++ others)
/-- One element of an array inside `join`: `undefined` and `null` give the empty text,
any other element its `String`. -/
def elementString (numberToString : Int → String) : JSValue → Except JsError String
  | undefined => pure ""
  | null => pure ""
  | bool true => pure "true"
  | bool false => pure "false"
  | num n => pure (numberString numberToString n)
  | str s => pure s
  | arr xs => joinElements numberToString xs
  | obj fields =>
    if fields.any (fun e => e.1 == "toString") then throw cannotConvert
    else pure "[object Object]"
end

end JSValue

/-! ## Promises, `Either`, `Task` -/

/-- A settled promise. -/
inductive Promise (ε : Type) (α : Type) where
  | resolved (value : α) : Promise ε α
  | rejected (reason : ε) : Promise ε α

namespace Promise

/-- The call `p.then(onFulfilled)`: a handler returns a value or a promise (here: a
resolved or any promise) or throws (here: a rejected promise); a rejection of
`p` passes through. -/
def then_ {ε α β : Type} (p : Promise ε α) (onFulfilled : α → Promise ε β) : Promise ε β :=
  match p with
  | resolved a => onFulfilled a
  | rejected e => rejected e

/-- The call `p.then(onFulfilled, onRejected)`: exactly one of the two handlers runs,
chosen by the settlement of `p`.  What `onFulfilled` throws is NOT passed to
`onRejected`. -/
def then2 {ε ε₂ α β : Type} (p : Promise ε α) (onFulfilled : α → Promise ε₂ β)
    (onRejected : ε → Promise ε₂ β) : Promise ε₂ β :=
  match p with
  | resolved a => onFulfilled a
  | rejected e => onRejected e

/-- The call `p.catch(onRejected)`. -/
def catch_ {ε ε₂ α : Type} (p : Promise ε α) (onRejected : ε → Promise ε₂ α) : Promise ε₂ α :=
  match p with
  | resolved a => resolved a
  | rejected e => onRejected e

/-- A synchronous handler body seen as the promise a `then` makes of it: a returned
value resolves, a thrown one rejects. -/
def ofExcept {ε α : Type} : Except ε α → Promise ε α
  | .ok a => resolved a
  | .error e => rejected e

/-- The same promise inside a chain whose rejections are of a wider type. -/
def widen {ε ε₂ α : Type} (inj : ε → ε₂) : Promise ε α → Promise ε₂ α
  | resolved a => resolved a
  | rejected e => rejected (inj e)

end Promise

/-- The type `Either` of fp-ts. -/
inductive Either (L : Type) (A : Type) where
  | left (value : L) : Either L A
  | right (value : A) : Either L A

/-- A call of the transport, as recorded in the call log. -/
structure FetchCall where
  input : String
  init : List (String × JSValue)

/-- An effectful computation: it threads the log of the transport calls made so far. -/
abbrev Eff (α : Type) : Type := StateM (List FetchCall) α

/-- The class `Task` of fp-ts: `new Task(run)` stores the thunk `run` and does not
call it; `task.run()` calls it. -/
structure Task (α : Type) where
  run : Eff α

/-! ## `src/request.ts` -/

/-- The union type `Method`. -/
inductive Method where
  | GET | POST | PUT | PATCH | DELETE | OPTIONS
  deriving DecidableEq, Repr

/-- The string a `Method` value is. -/
def Method.toString : Method → String
  | GET => "GET"
  | POST => "POST"
  | PUT => "PUT"
  | PATCH => "PATCH"
  | DELETE => "DELETE"
  | OPTIONS => "OPTIONS"

/-- The interface `HeadersMap`, a plain object from names to values: its own
properties in insertion order. -/
abbrev HeadersMap : Type := List (String × String)

/-- The transport's `Headers` collection, as the sequence of `(name, value)` entries its
`forEach` yields. -/
abbrev Headers : Type := List (String × String)

/-- The configuration object `RequestInit`: own properties in insertion order. -/
abbrev RequestInit : Type := List (String × JSValue)

/-- The transport's `Response`, as far as `request` reads it.  `text` is the settlement
of the promise `resp.text()` returns. -/
structure Response where
  ok : Bool
  status : Nat
  statusText : String
  url : String
  headers : Headers
  text : Promise JsError String

/-- The interface `AppyResponse<A>`. -/
structure AppyResponse (A : Type) where
  headers : HeadersMap
  status : Nat
  statusText : String
  url : String
  body : A

/-- The class `NetworkError`. -/
structure NetworkError where
  message : String
  uri : String
  deriving DecidableEq, Repr

/-- The class `BadUrl`. -/
structure BadUrl where
  url : String
  response : AppyResponse JSValue

/-- The class `BadResponse`. -/
structure BadResponse where
  response : AppyResponse JSValue

/-- The union type `AppyError = NetworkError | BadUrl | BadResponse`. -/
inductive AppyError where
  | networkError (e : NetworkError) : AppyError
  | badUrl (e : BadUrl) : AppyError
  | badResponse (e : BadResponse) : AppyError

/-- A value travelling on the rejection channel of the promise chain of `request`: an
instance of one of the three classes, or an error object of the host. -/
inductive Thrown where
  | appy (e : AppyError) : Thrown
  | error (e : JsError) : Thrown

/-- The host and the transport `request` runs against. -/
structure Env where
  /-- The built-in `JSON.parse`: the parsed value, or the `SyntaxError` thrown. -/
  jsonParse : String → Except JsError JSValue
  /-- The settlement of the promise `fetch(input, init)` returns, which may depend on the
  calls made before. -/
  transport : List FetchCall → String → RequestInit → Promise JsError Response

/-- The call `fetch(input, init)`: one more entry in the call log. -/
def fetch (env : Env) (input : String) (init : RequestInit) : Eff (Promise JsError Response) :=
  fun log => (env.transport log input init, log ++ [⟨input, init⟩])

/-- Assignment `o[k] = v` on a plain object of values: an existing own property keeps
its place and takes the new value, a new one comes last. -/
def setProp (o : List (String × JSValue)) (k : String) (v : JSValue) : List (String × JSValue) :=
  if o.any (fun e => e.1 == k) then o.map (fun e => if e.1 == k then (k, v) else e)
  else o ++ [(k, v)]

/-- The object literal `{...options, method}`: the own properties of `options` (none
when it is omitted), then `method`. -/
def spreadMethod (options : Option RequestInit) (method : Method) : RequestInit :=
  setProp (options.getD []) "method" (JSValue.str method.toString)

/-- Assignment `result[k] = v` on the plain object `result` of `toHeadersMap`.  The name
`__proto__` is the accessor inherited from `Object.prototype`, whose setter
ignores a string: no own property is made.  Any other name is an own data
property. -/
def HeadersMap.assign (result : HeadersMap) (k v : String) : HeadersMap :=
  if k == "__proto__" then result
  else if result.any (fun e => e.1 == k) then
    result.map (fun e => if e.1 == k then (k, v) else e)
  else result ++ [(k, v)]

/-- Read of the own property `k` of a `HeadersMap`, if it has one. -/
def HeadersMap.get? (m : HeadersMap) (k : String) : Option String :=
  (m.find? (fun e => e.1 == k)).map (fun e => e.2)

/-- The function `toHeadersMap`. -/
def toHeadersMap (hs : Headers) : HeadersMap :=
  hs.foldl (fun result e => HeadersMap.assign result e.1 e.2) []

/-- The function `parseBody`: `JSON.parse(a)`, and `a` itself when that throws. -/
def parseBody (env : Env) (a : String) : Except JsError JSValue :=
  try env.jsonParse a catch _ => pure (JSValue.str a)

/-- The type `AppyTask`.  The left arm holds whatever the final `catch` caught. -/
abbrev AppyTask : Type := Task (Promise Thrown (Either Thrown (AppyResponse JSValue)))

/-- The function `request`. -/
def request (env : Env) (method : Method) (uri : String) (options : Option RequestInit) :
    Eff AppyTask :=
  pure (Task.mk (do
    let p ← fetch env uri (spreadMethod options method)
    pure (((p.then2
      (fun resp =>
        ((resp.text.then_ (fun a => Promise.ofExcept (parseBody env a))).then_
          (fun body => Promise.resolved (resp, body))).widen Thrown.error)
      (fun e => Promise.rejected (Thrown.appy (AppyError.networkError ⟨e.message, uri⟩)))).then_
      (fun rb =>
        let aresp : AppyResponse JSValue :=
          { headers := toHeadersMap rb.1.headers
            status := rb.1.status
            statusText := rb.1.statusText
            url := rb.1.url
            body := rb.2 }
        if rb.1.ok then Promise.resolved (Either.right aresp)
        else if rb.1.status = 404 then
          Promise.rejected (Thrown.appy (AppyError.badUrl ⟨uri, aresp⟩))
        else Promise.rejected (Thrown.appy (AppyError.badResponse ⟨aresp⟩)))).catch_
      (fun e => Promise.resolved (Either.left e)))))

/-- Running `request(method, uri, options)`: build the task, then call its `run`. -/
def runRequest (env : Env) (method : Method) (uri : String) (options : Option RequestInit) :
    Eff (Promise Thrown (Either Thrown (AppyResponse JSValue))) := do
  let task ← request env method uri options
  task.run

/-- The function `get`. -/
def get (env : Env) (uri : String) (options : Option RequestInit) : Eff AppyTask :=
  request env Method.GET uri options

/-- The function `post`. -/
def post (env : Env) (uri : String) (options : Option RequestInit) : Eff AppyTask :=
  request env Method.POST uri options

/-- The function `put`. -/
def put (env : Env) (uri : String) (options : Option RequestInit) : Eff AppyTask :=
  request env Method.PUT uri options

/-- The function `patch`. -/
def patch (env : Env) (uri : String) (options : Option RequestInit) : Eff AppyTask :=
  request env Method.PATCH uri options

/-- The function `del`. -/
def del (env : Env) (uri : String) (options : Option RequestInit) : Eff AppyTask :=
  request env Method.DELETE uri options

/-- Running a task a wrapper or `request` has built: build it, then call its `run`. -/
def runBuilt (build : Eff AppyTask) :
    Eff (Promise Thrown (Either Thrown (AppyResponse JSValue))) := do
  let task ← build
  task.run

/-! ## `src/api/index.js`

The module imports `request` from `../request`, `headers` from `./headers` and
`CONFIG_REJECT` from `./constants`.  These three are collaborators of the
factory and are taken as parameters (`Api.Deps`); each call of `request` is
recorded in a call log. -/

namespace Api

/-- A call of the collaborator `request`, as recorded in the call log. -/
structure RequestCall where
  method : JSValue
  uri : String
  options : JSValue

/-- An effectful computation of the api module: it threads the log of the calls of
`request` made so far. -/
abbrev ApiEff (α : Type) : Type := StateM (List RequestCall) α

/-- The three imports of the module, and the host's text of a number beyond the safe
integers (see `JSValue.numberString`).  `R` is the type of a normalised
response. -/
structure Deps (R : Type) where
  CONFIG_REJECT : JSValue
  headers : JSValue → JSValue → JSValue
  requestResult : List RequestCall → JSValue → String → JSValue → Promise JSValue R
  numberToString : Int → String

/-- The call `request(method, uri, options)` of the imported collaborator: one more
entry in the call log, and the promise the collaborator returns. -/
def callRequest {R : Type} (deps : Deps R) (method : JSValue) (uri : String)
    (options : JSValue) : ApiEff (Promise JSValue R) :=
  fun log => (deps.requestResult log method uri options, log ++ [⟨method, uri, options⟩])

/-- The type `ApiFn`: a call either returns a promise or throws. -/
abbrev ApiFn (R : Type) : Type :=
  JSValue → JSValue → JSValue → JSValue → ApiEff (Except JsError (Promise JSValue R))

/-- The function `fromNullable` of fp-ts. -/
def fromNullable (a : JSValue) : Option JSValue :=
  if a.isNullish then none else some a

/-- The method `Array.prototype.map` with a callback that may throw: the elements are
visited in order and the first throw ends the whole. -/
def mapThrowing {α β : Type} (f : α → Except JsError β) : List α → Except JsError (List β)
  | [] => pure []
  | x :: xs => do
    let y ← f x
    let ys ← mapThrowing f xs
    pure (y :: ys)

/-- The function `concatStrings`.  `map(String)` converts the kept elements in order and
throws where `String` throws. -/
def concatStrings (numberToString : Int → String) (xs : List JSValue) :
    Except JsError String := do
  let parts ← mapThrowing (JSValue.jsString numberToString)
    (xs.filter (fun s => s.typeof != "undefined" && !s.isNull))
  pure (String.join parts)

/-- The function `compRequest`.  The arguments of `request` are evaluated in order: when
`concatStrings` throws, `headers` and `request` are not called. -/
def compRequest {R : Type} (deps : Deps R) (config : JSValue) : Option (ApiFn R) :=
  (fromNullable (config.getProp "baseUri")).map (fun b =>
    fun method uri token options =>
      match concatStrings deps.numberToString [b, uri] with
      | Except.error e => pure (Except.error e)
      | Except.ok address => do
        let promise ← callRequest deps method address
          (deps.headers
            (JSValue.obj
              [("version", config.getProp "version"), ("id", config.getProp "id"),
                ("token", token)])
            options)
        pure (Except.ok promise))

/-- The function `api`, the default export (the client factory). -/
def api {R : Type} (deps : Deps R) (config : JSValue) : ApiFn R :=
  match (fromNullable config).bind (compRequest deps) with
  | none => fun _ _ _ _ =>
    pure (Except.ok (Promise.rejected (JSValue.obj [("error", deps.CONFIG_REJECT)])))
  | some s => s

/-- The text the spec gives for `concatStrings`: the in-order concatenation of
`String(x)` over the elements `x` that are neither `undefined` nor `null`. -/
def concatSpec (numberToString : Int → String) : List JSValue → Except JsError String
  | [] => pure ""
  | JSValue.undefined :: xs => concatSpec numberToString xs
  | JSValue.null :: xs => concatSpec numberToString xs
  | x :: xs => do
    let first ← JSValue.jsString numberToString x
    let others ← concatSpec numberToString xs
    pure (first ++ others)

end Api

/-! ## `src/request/test/_helpers.js` -/

/-- The conversion `ToBoolean`, which `||` and `? :` apply to their first operand. -/
def JSValue.truthy : JSValue → Bool
  | JSValue.undefined => false
  | JSValue.null => false
  | JSValue.bool b => b
  | JSValue.num n => n != 0
  | JSValue.str s => s != ""
  | JSValue.arr _ => true
  | JSValue.obj _ => true

namespace Helpers

/-- The object the helper `response` returns.  `json` and `text` hold the settlement of
the promise the call of the method returns. -/
structure MockResponse where
  json : Promise JsError JSValue
  text : Promise JsError JSValue
  ok : JSValue
  status : JSValue

/-- The function `response`. -/
def response (data success status : JSValue) : MockResponse :=
  { json := Promise.resolved data
    text := Promise.resolved data
    ok := success
    status :=
      if status.truthy then status
      else if success.truthy then JSValue.num 200 else JSValue.num 500 }

end Helpers

/-! ## Observations and sample data used in the statements -/

/-- The normalised response an outcome carries, when it carries one. -/
def Either.response? : Either Thrown (AppyResponse JSValue) → Option (AppyResponse JSValue)
  | Either.right r => some r
  | Either.left (Thrown.appy (AppyError.badUrl e)) => some e.response
  | Either.left (Thrown.appy (AppyError.badResponse e)) => some e.response
  | Either.left _ => none

/-- Calling `task.run()` a number of times in a row. -/
def Task.runTimes {α : Type} (task : Task α) : Nat → Eff Unit
  | 0 => pure ()
  | n + 1 => do
    let _ ← task.run
    task.runTimes n

/-- A sample `JSON.parse`, defined on one text only. -/
def sampleParse (s : String) : Except JsError JSValue :=
  if s = "\x7b\"a\":1\x7d" then Except.ok (JSValue.obj [("a", JSValue.num 1)])
  else Except.error ⟨"SyntaxError", "Unexpected token"⟩

/-- A sample host whose transport settles every call the same way. -/
def sampleEnv (p : Promise JsError Response) : Env :=
  { jsonParse := sampleParse
    transport := fun _ _ _ => p }

/-- A sample response: 200 with a JSON body. -/
def okResponse : Response :=
  { ok := true
    status := 200
    statusText := "OK"
    url := "https://example.org/a"
    headers := [("content-type", "application/json")]
    text := Promise.resolved "\x7b\"a\":1\x7d" }

/-- A sample response: 404 with a plain body, after a redirect. -/
def notFoundResponse : Response :=
  { ok := false
    status := 404
    statusText := "Not Found"
    url := "https://example.org/moved"
    headers := [("content-type", "text/plain")]
    text := Promise.resolved "not found" }

/-- A sample response: 500 with a plain body. -/
def serverErrorResponse : Response :=
  { ok := false
    status := 500
    statusText := "Internal Server Error"
    url := "https://example.org/a"
    headers := []
    text := Promise.resolved "oops" }

/-- A sample response whose body cannot be read: `text()` rejects. -/
def brokenBodyResponse : Response :=
  { ok := true
    status := 200
    statusText := "OK"
    url := "https://example.org/a"
    headers := []
    text := Promise.rejected ⟨"TypeError", "network error"⟩ }

/-- A sample response: 404 whose body cannot be read. -/
def broken404Response : Response :=
  { ok := false
    status := 404
    statusText := "Not Found"
    url := "https://example.org/a"
    headers := []
    text := Promise.rejected ⟨"TypeError", "network error"⟩ }

/-- A sample response: 500 whose body cannot be read. -/
def broken500Response : Response :=
  { ok := false
    status := 500
    statusText := "Internal Server Error"
    url := "https://example.org/a"
    headers := []
    text := Promise.rejected ⟨"TypeError", "network error"⟩ }

/-- Sample imports of the api module.  Its `numberToString` is a stand-in that no
statement below evaluates. -/
def sampleDeps : Api.Deps Nat :=
  { CONFIG_REJECT := JSValue.str "CONFIG_REJECT"
    headers := fun identity options => JSValue.arr [identity, options]
    requestResult := fun log _ _ _ => Promise.resolved log.length
    numberToString := fun n => toString n }

/-! ## Lemmas -/

theorem parseBody_eq (env : Env) (a : String) :
    parseBody env a = Except.ok (match env.jsonParse a with
      | Except.ok v => v
      | Except.error _ => JSValue.str a) := by
  unfold parseBody
  cases h : env.jsonParse a <;> rfl

theorem runRequest_log (env : Env) (method : Method) (uri : String)
    (options : Option RequestInit) (log : List FetchCall) :
    (runRequest env method uri options log).2 = log ++ [⟨uri, spreadMethod options method⟩] :=
  rfl

theorem runRequest_of_rejected (env : Env) (method : Method) (uri : String)
    (options : Option RequestInit) (log : List FetchCall) (e : JsError)
    (hfetch : env.transport log uri (spreadMethod options method) = Promise.rejected e) :
    (runRequest env method uri options log).1 =
      Promise.resolved (Either.left (Thrown.appy (AppyError.networkError ⟨e.message, uri⟩))) := by
  simp [runRequest, request, fetch, bind, pure, StateT.bind, StateT.pure, hfetch,
    Promise.then2, Promise.then_, Promise.catch_]

theorem runRequest_of_text_rejected (env : Env) (method : Method) (uri : String)
    (options : Option RequestInit) (log : List FetchCall) (resp : Response) (e : JsError)
    (hfetch : env.transport log uri (spreadMethod options method) = Promise.resolved resp)
    (htext : resp.text = Promise.rejected e) :
    (runRequest env method uri options log).1 =
      Promise.resolved (Either.left (Thrown.error e)) := by
  simp [runRequest, request, fetch, bind, pure, StateT.bind, StateT.pure, hfetch, htext,
    Promise.then2, Promise.then_, Promise.catch_, Promise.widen]

theorem runRequest_of_text_resolved (env : Env) (method : Method) (uri : String)
    (options : Option RequestInit) (log : List FetchCall) (resp : Response) (t : String)
    (body : JSValue)
    (hfetch : env.transport log uri (spreadMethod options method) = Promise.resolved resp)
    (htext : resp.text = Promise.resolved t) (hbody : parseBody env t = Except.ok body) :
    (runRequest env method uri options log).1 =
      if resp.ok = true then
        Promise.resolved (Either.right
          ⟨toHeadersMap resp.headers, resp.status, resp.statusText, resp.url, body⟩)
      else if resp.status = 404 then
        Promise.resolved (Either.left (Thrown.appy (AppyError.badUrl
          ⟨uri, ⟨toHeadersMap resp.headers, resp.status, resp.statusText, resp.url, body⟩⟩)))
      else
        Promise.resolved (Either.left (Thrown.appy (AppyError.badResponse
          ⟨⟨toHeadersMap resp.headers, resp.status, resp.statusText, resp.url, body⟩⟩))) := by
  simp only [runRequest, request, fetch, bind, pure, StateT.bind, StateT.pure, hfetch, htext,
    Promise.then2, Promise.then_, Promise.catch_, Promise.widen, Promise.ofExcept, hbody]
  by_cases hok : resp.ok = true
  · simp [hok]
  · by_cases hst : resp.status = 404
    · simp [hok, hst]
    · simp [hok, hst]

theorem either_one_arm {L A : Type} (out : Either L A) :
    ((∃ e, out = Either.left e) ∧ ¬ ∃ r, out = Either.right r) ∨
      ((∃ r, out = Either.right r) ∧ ¬ ∃ e, out = Either.left e) := by
  cases out <;> simp

theorem foldl_append_string (l : List String) (acc : String) :
    l.foldl (fun r s => r ++ s) acc = acc ++ l.foldl (fun r s => r ++ s) "" := by
  induction l generalizing acc with
  | nil => simp
  | cons a l ih =>
    simp only [List.foldl_cons]
    rw [ih (acc ++ a), ih ("" ++ a)]
    simp [String.append_assoc]

theorem string_join_cons (a : String) (l : List String) :
    String.join (a :: l) = a ++ String.join l := by
  unfold String.join
  simp only [List.foldl_cons]
  rw [foldl_append_string]
  simp

theorem concatStrings_cons (f : Int → String) (x : JSValue) (xs : List JSValue) :
    Api.concatStrings f (x :: xs) =
      if x.isNullish then Api.concatStrings f xs
      else (do
        let first ← JSValue.jsString f x
        let others ← Api.concatStrings f xs
        pure (first ++ others)) := by
  cases x <;>
    simp [Api.concatStrings, Api.mapThrowing, JSValue.typeof, JSValue.isNull,
      JSValue.isNullish, List.filter_cons, string_join_cons]

theorem concatStrings_eq_concatSpec (f : Int → String) (xs : List JSValue) :
    Api.concatStrings f xs = Api.concatSpec f xs := by
  induction xs with
  | nil => rfl
  | cons x xs ih =>
    rw [concatStrings_cons]
    cases x <;> simp [Api.concatSpec, JSValue.isNullish, ih]

theorem concatStrings_pair (f : Int → String) (b : String) (path : JSValue) :
    Api.concatStrings f [JSValue.str b, path] =
      if path.isNullish then Except.ok b
      else (JSValue.jsString f path).map (fun s => b ++ s) := by
  have hnil : Api.concatStrings f [] = Except.ok "" := rfl
  have hstr : JSValue.jsString f (JSValue.str b) = Except.ok b := rfl
  have hbase : (JSValue.str b).isNullish = false := rfl
  rw [concatStrings_cons, concatStrings_cons, hnil, hstr, hbase]
  by_cases hp : path.isNullish = true
  · simp [hp, bind, Except.bind, pure, Except.pure]
  · simp only [hp, Bool.false_eq_true, if_false]
    cases JSValue.jsString f path <;> simp [bind, Except.bind, pure, Except.pure, Except.map]

theorem fromNullable_bind_none {R : Type} (deps : Api.Deps R) (config : JSValue)
    (h : (config.getProp "baseUri").isNullish = true) :
    (Api.fromNullable config).bind (Api.compRequest deps) = none := by
  cases hc : Api.fromNullable config with
  | none => rfl
  | some c =>
    have hcc : c = config := by
      unfold Api.fromNullable at hc
      split at hc <;> simp_all
    subst hcc
    simp [Api.compRequest, h, Api.fromNullable]

theorem find?_map_update {β : Type} (l : List (String × β)) (k k2 : String) (v : β) :
    (l.map (fun e => if e.1 == k then (k, v) else e)).find? (fun e => e.1 == k2) =
      if k2 = k then (if l.any (fun e => e.1 == k) then some (k, v) else none)
      else l.find? (fun e => e.1 == k2) := by
  induction l with
  | nil => simp
  | cons a l ih =>
    simp only [List.map_cons, List.find?_cons, List.any_cons, ih]
    by_cases ha : a.1 = k
    · by_cases hk : k2 = k
      · simp [ha, hk]
      · have hb : (k == k2) = false := by
          simp only [beq_eq_false_iff_ne, ne_eq]
          exact fun h => hk h.symm
        simp [ha, hk, hb]
    · have hb : (a.1 == k) = false := by
        simp only [beq_eq_false_iff_ne, ne_eq]
        exact ha
      by_cases hk : k2 = k
      · simp only [hk, hb, Bool.false_or, if_true, Bool.false_eq_true, if_false]
      · by_cases ha2 : a.1 = k2
        · simp [ha, hk, ha2]
        · simp [ha, hk, ha2]

theorem find?_update {β : Type} (l : List (String × β)) (k k2 : String) (v : β) :
    (if l.any (fun e => e.1 == k) then l.map (fun e => if e.1 == k then (k, v) else e)
      else l ++ [(k, v)]).find? (fun e => e.1 == k2) =
      if k2 = k then some (k, v) else l.find? (fun e => e.1 == k2) := by
  by_cases hany : l.any (fun e => e.1 == k) = true
  · rw [if_pos hany, find?_map_update]
    simp [hany]
  · rw [if_neg hany]
    by_cases hk : k2 = k
    · subst hk
      have hnone : l.find? (fun e => e.1 == k2) = none := by
        simp only [List.any_eq_true, not_exists, not_and] at hany
        rw [List.find?_eq_none]
        intro x hx
        exact hany x hx
      simp [List.find?_append, hnone]
    · have : ¬ k = k2 := fun h => hk h.symm
      simp [List.find?_append, hk, this, List.find?_cons]

theorem filter_map_update {β : Type} (l : List (String × β)) (k : String) (v : β) :
    (l.map (fun e => if e.1 == k then (k, v) else e)).filter (fun e => e.1 != k) =
      l.filter (fun e => e.1 != k) := by
  induction l with
  | nil => rfl
  | cons a l ih =>
    simp only [List.map_cons, List.filter_cons, ih]
    by_cases ha : a.1 = k
    · simp [ha]
    · simp [ha]

theorem filter_update {β : Type} (l : List (String × β)) (k : String) (v : β) :
    (if l.any (fun e => e.1 == k) then l.map (fun e => if e.1 == k then (k, v) else e)
      else l ++ [(k, v)]).filter (fun e => e.1 != k) = l.filter (fun e => e.1 != k) := by
  split
  · exact filter_map_update l k v
  · simp [List.filter_append]

theorem getProp_setProp (o : List (String × JSValue)) (k k2 : String) (v : JSValue) :
    JSValue.getProp (JSValue.obj (setProp o k v)) k2 =
      if k2 = k then v else JSValue.getProp (JSValue.obj o) k2 := by
  simp only [JSValue.getProp, setProp]
  rw [find?_update]
  by_cases hk : k2 = k
  · simp [hk]
  · simp [hk]

theorem get?_assign (m : HeadersMap) (k v k2 : String) :
    (HeadersMap.assign m k v).get? k2 =
      if k2 = k ∧ k ≠ "__proto__" then some v else m.get? k2 := by
  unfold HeadersMap.assign HeadersMap.get?
  by_cases hp : k = "__proto__"
  · simp [hp]
  · have hb : (k == "__proto__") = false := by
      simp only [beq_eq_false_iff_ne, ne_eq]
      exact hp
    simp only [hb, Bool.false_eq_true, if_false]
    rw [find?_update]
    by_cases hk : k2 = k
    · simp [hk, hp]
    · simp [hk]

theorem get?_isSome_iff (m : HeadersMap) (k : String) :
    (m.get? k).isSome = true ↔ k ∈ m.map Prod.fst := by
  unfold HeadersMap.get?
  simp only [Option.isSome_map', List.find?_isSome, List.mem_map]
  constructor
  · rintro ⟨x, hx, hk⟩
    exact ⟨x, hx, by simpa using hk⟩
  · rintro ⟨x, hx, hk⟩
    exact ⟨x, hx, by simpa using hk⟩

theorem get?_foldl_isSome (hs : Headers) (acc : HeadersMap) (k : String) :
    ((hs.foldl (fun result e => HeadersMap.assign result e.1 e.2) acc).get? k).isSome = true ↔
      (k ∈ hs.map Prod.fst ∧ k ≠ "__proto__") ∨ (acc.get? k).isSome = true := by
  induction hs generalizing acc with
  | nil => simp
  | cons e hs ih =>
    rw [List.foldl_cons, ih, get?_assign]
    by_cases hk : k = e.1
    · by_cases hp : e.1 = "__proto__"
      · simp [hk, hp]
      · simp [hk, hp]
    · have hk2 : ¬ e.1 = k := fun h => hk h.symm
      simp [hk, hk2]

theorem get?_foldl_of_not_mem (hs : Headers) (acc : HeadersMap) (k : String)
    (h : k ∉ hs.map Prod.fst) :
    (hs.foldl (fun result e => HeadersMap.assign result e.1 e.2) acc).get? k = acc.get? k := by
  induction hs generalizing acc with
  | nil => rfl
  | cons e hs ih =>
    simp only [List.map_cons, List.mem_cons, not_or] at h
    rw [List.foldl_cons, ih _ h.2, get?_assign]
    simp [h.1]

theorem get?_foldl_of_mem (hs : Headers) (acc : HeadersMap) (k v : String)
    (hnd : (hs.map Prod.fst).Nodup) (hmem : (k, v) ∈ hs) (hk : k ≠ "__proto__") :
    (hs.foldl (fun result e => HeadersMap.assign result e.1 e.2) acc).get? k = some v := by
  induction hs generalizing acc with
  | nil => simp at hmem
  | cons e hs ih =>
    simp only [List.map_cons, List.nodup_cons] at hnd
    rw [List.foldl_cons]
    rcases List.mem_cons.mp hmem with h | h
    · subst h
      rw [get?_foldl_of_not_mem _ _ _ hnd.1, get?_assign]
      simp [hk]
    · exact ih _ hnd.2 h

theorem get?_foldl_proto (hs : Headers) (acc : HeadersMap) :
    (hs.foldl (fun result e => HeadersMap.assign result e.1 e.2) acc).get? "__proto__" =
      acc.get? "__proto__" := by
  induction hs generalizing acc with
  | nil => rfl
  | cons e hs ih =>
    rw [List.foldl_cons, ih, get?_assign]
    by_cases hp : e.1 = "__proto__"
    · simp [hp]
    · have : ¬ "__proto__" = e.1 := fun h => hp h.symm
      simp [this]

theorem toHeadersMap_get?_iff (hs : Headers) (hnd : (hs.map Prod.fst).Nodup) (k v : String)
    (hk : k ≠ "__proto__") : (toHeadersMap hs).get? k = some v ↔ (k, v) ∈ hs := by
  constructor
  · intro h
    by_cases hmem : k ∈ hs.map Prod.fst
    · obtain ⟨⟨k2, v2⟩, hx, hkx⟩ := List.mem_map.mp hmem
      simp only at hkx
      subst hkx
      have h2 := get?_foldl_of_mem hs [] k2 v2 hnd hx hk
      unfold toHeadersMap at h
      rw [h2] at h
      cases h
      exact hx
    · have h2 := get?_foldl_of_not_mem hs [] k hmem
      unfold toHeadersMap at h
      rw [h2] at h
      simp [HeadersMap.get?] at h
  · intro h
    exact get?_foldl_of_mem hs [] k v hnd h hk

theorem toHeadersMap_perm (hs hs2 : Headers) (hp : hs.Perm hs2)
    (hnd : (hs.map Prod.fst).Nodup) (k : String) :
    (toHeadersMap hs).get? k = (toHeadersMap hs2).get? k := by
  have hnd2 : (hs2.map Prod.fst).Nodup := (hp.map Prod.fst).nodup_iff.mp hnd
  by_cases hk : k = "__proto__"
  · subst hk
    unfold toHeadersMap
    rw [get?_foldl_proto, get?_foldl_proto]
  · by_cases hmem : k ∈ hs.map Prod.fst
    · obtain ⟨⟨k2, v2⟩, hx, hkx⟩ := List.mem_map.mp hmem
      simp only at hkx
      subst hkx
      rw [(toHeadersMap_get?_iff hs hnd k2 v2 hk).mpr hx,
        (toHeadersMap_get?_iff hs2 hnd2 k2 v2 hk).mpr (hp.mem_iff.mp hx)]
    · have hmem2 : k ∉ hs2.map Prod.fst := fun h => hmem ((hp.map Prod.fst).mem_iff.mpr h)
      unfold toHeadersMap
      rw [get?_foldl_of_not_mem hs [] k hmem, get?_foldl_of_not_mem hs2 [] k hmem2]

theorem toHeadersMap_keys (hs : Headers) (k : String) :
    k ∈ (toHeadersMap hs).map Prod.fst ↔ k ∈ hs.map Prod.fst ∧ k ≠ "__proto__" := by
  rw [← get?_isSome_iff]
  unfold toHeadersMap
  rw [get?_foldl_isSome]
  simp [HeadersMap.get?]

/-! ## The request engine -/

/-- C1, amended: when the transport answers with a response whose `ok` is true (whatever
its status) and whose body text is read and is `t`, running `request(method, uri, options)`
resolves with `right` of the response made of the transport's status,
statusText and url, the flattened headers and `parseBody(t)`. -/
theorem request_ok_is_right (env : Env) (method : Method) (uri : String)
    (options : Option RequestInit) (log : List FetchCall) (resp : Response) (t : String)
    (hfetch : env.transport log uri (spreadMethod options method) = Promise.resolved resp)
    (htext : resp.text = Promise.resolved t) (hok : resp.ok = true) :
    ∃ body, parseBody env t = Except.ok body ∧
      (runRequest env method uri options log).1 =
        Promise.resolved (Either.right
          { headers := toHeadersMap resp.headers
            status := resp.status
            statusText := resp.statusText
            url := resp.url
            body := body }) := by
  refine ⟨_, parseBody_eq env t, ?_⟩
  simp [runRequest, request, fetch, bind, pure, StateT.bind, StateT.pure, hfetch, htext,
    Promise.then2, Promise.then_, Promise.catch_, Promise.widen, Promise.ofExcept,
    parseBody_eq, hok]

theorem request_ok_is_right_witness :
    ∃ body, parseBody (sampleEnv (Promise.resolved okResponse)) "\x7b\"a\":1\x7d"
        = Except.ok body ∧
      (runRequest (sampleEnv (Promise.resolved okResponse)) Method.GET
          "https://example.org/a" none []).1 =
        Promise.resolved (Either.right
          { headers := toHeadersMap okResponse.headers
            status := okResponse.status
            statusText := okResponse.statusText
            url := okResponse.url
            body := body }) :=
  request_ok_is_right (sampleEnv (Promise.resolved okResponse)) Method.GET
    "https://example.org/a" none [] okResponse "\x7b\"a\":1\x7d" rfl rfl rfl

/-- Counterexample to C1 as first stated (without the proviso that the body text
is read): the transport answers
with a response whose `ok` is true and whose `text()` rejects; the run resolves
with `left` of the raw error, not with `right`. -/
theorem request_ok_is_right_counterexample :
    brokenBodyResponse.ok = true ∧
      (sampleEnv (Promise.resolved brokenBodyResponse)).transport [] "https://example.org/a"
          (spreadMethod none Method.GET) = Promise.resolved brokenBodyResponse ∧
      (runRequest (sampleEnv (Promise.resolved brokenBodyResponse)) Method.GET
          "https://example.org/a" none []).1 =
        Promise.resolved (Either.left (Thrown.error ⟨"TypeError", "network error"⟩)) ∧
      ¬ ∃ r : AppyResponse JSValue,
        (runRequest (sampleEnv (Promise.resolved brokenBodyResponse)) Method.GET
          "https://example.org/a" none []).1 = Promise.resolved (Either.right r) := by
  refine ⟨rfl, rfl, rfl, ?_⟩
  rintro ⟨r, h⟩
  have hrun : (runRequest (sampleEnv (Promise.resolved brokenBodyResponse)) Method.GET
      "https://example.org/a" none []).1 =
      Promise.resolved (Either.left (Thrown.error ⟨"TypeError", "network error"⟩)) := rfl
  rw [hrun] at h
  cases h

/-- C2, amended: when the transport answers with a response whose `ok` is false, whose
status is 404 and whose body text is read, running `request(method, uri, options)` resolves with `left` of a
`BadUrl` whose `url` is the `uri` given to `request` and whose `response` is
the full normalised response (whose own `url` is the response's). -/
theorem request_404_is_badUrl (env : Env) (method : Method) (uri : String)
    (options : Option RequestInit) (log : List FetchCall) (resp : Response) (t : String)
    (hfetch : env.transport log uri (spreadMethod options method) = Promise.resolved resp)
    (htext : resp.text = Promise.resolved t) (hok : resp.ok = false)
    (hstatus : resp.status = 404) :
    ∃ body, parseBody env t = Except.ok body ∧
      (runRequest env method uri options log).1 =
        Promise.resolved (Either.left (Thrown.appy (AppyError.badUrl
          { url := uri
            response :=
              { headers := toHeadersMap resp.headers
                status := 404
                statusText := resp.statusText
                url := resp.url
                body := body } }))) := by
  refine ⟨_, parseBody_eq env t, ?_⟩
  simp [runRequest, request, fetch, bind, pure, StateT.bind, StateT.pure, hfetch, htext,
    Promise.then2, Promise.then_, Promise.catch_, Promise.widen, Promise.ofExcept,
    parseBody_eq, hok, hstatus]

theorem request_404_is_badUrl_witness :
    ∃ body, parseBody (sampleEnv (Promise.resolved notFoundResponse)) "not found"
        = Except.ok body ∧
      (runRequest (sampleEnv (Promise.resolved notFoundResponse)) Method.GET
          "https://example.org/a" none []).1 =
        Promise.resolved (Either.left (Thrown.appy (AppyError.badUrl
          { url := "https://example.org/a"
            response :=
              { headers := toHeadersMap notFoundResponse.headers
                status := 404
                statusText := notFoundResponse.statusText
                url := notFoundResponse.url
                body := body } }))) :=
  request_404_is_badUrl (sampleEnv (Promise.resolved notFoundResponse)) Method.GET
    "https://example.org/a" none [] notFoundResponse "not found" rfl rfl rfl rfl

/-- Counterexample to C2 as first stated (without the proviso that the body text
is read): the transport answers
with a response whose `ok` is false, whose status is 404 and whose `text()`
rejects; the run resolves with `left` of the raw error, not of a `BadUrl`. -/
theorem request_404_is_badUrl_counterexample :
    broken404Response.ok = false ∧ broken404Response.status = 404 ∧
      (sampleEnv (Promise.resolved broken404Response)).transport [] "https://example.org/a"
          (spreadMethod none Method.GET) = Promise.resolved broken404Response ∧
      (runRequest (sampleEnv (Promise.resolved broken404Response)) Method.GET
          "https://example.org/a" none []).1 =
        Promise.resolved (Either.left (Thrown.error ⟨"TypeError", "network error"⟩)) ∧
      ¬ ∃ r : BadUrl,
        (runRequest (sampleEnv (Promise.resolved broken404Response)) Method.GET
          "https://example.org/a" none []).1 =
          Promise.resolved (Either.left (Thrown.appy (AppyError.badUrl r))) := by
  refine ⟨rfl, rfl, rfl, rfl, ?_⟩
  rintro ⟨r, h⟩
  have hrun : (runRequest (sampleEnv (Promise.resolved broken404Response)) Method.GET
      "https://example.org/a" none []).1 =
      Promise.resolved (Either.left (Thrown.error ⟨"TypeError", "network error"⟩)) := rfl
  rw [hrun] at h
  cases h

/-- C3, amended: when the transport answers with a response whose `ok` is false, whose
status is not 404 and whose body text is read, running `request(method, uri, options)` resolves with `left` of a
`BadResponse` whose `response` is the full normalised response. -/
theorem request_other_is_badResponse (env : Env) (method : Method) (uri : String)
    (options : Option RequestInit) (log : List FetchCall) (resp : Response) (t : String)
    (hfetch : env.transport log uri (spreadMethod options method) = Promise.resolved resp)
    (htext : resp.text = Promise.resolved t) (hok : resp.ok = false)
    (hstatus : resp.status ≠ 404) :
    ∃ body, parseBody env t = Except.ok body ∧
      (runRequest env method uri options log).1 =
        Promise.resolved (Either.left (Thrown.appy (AppyError.badResponse
          { response :=
              { headers := toHeadersMap resp.headers
                status := resp.status
                statusText := resp.statusText
                url := resp.url
                body := body } }))) := by
  refine ⟨_, parseBody_eq env t, ?_⟩
  simp [runRequest, request, fetch, bind, pure, StateT.bind, StateT.pure, hfetch, htext,
    Promise.then2, Promise.then_, Promise.catch_, Promise.widen, Promise.ofExcept,
    parseBody_eq, hok, hstatus]

theorem request_other_is_badResponse_witness :
    ∃ body, parseBody (sampleEnv (Promise.resolved serverErrorResponse)) "oops"
        = Except.ok body ∧
      (runRequest (sampleEnv (Promise.resolved serverErrorResponse)) Method.POST
          "https://example.org/a" none []).1 =
        Promise.resolved (Either.left (Thrown.appy (AppyError.badResponse
          { response :=
              { headers := toHeadersMap serverErrorResponse.headers
                status := serverErrorResponse.status
                statusText := serverErrorResponse.statusText
                url := serverErrorResponse.url
                body := body } }))) :=
  request_other_is_badResponse (sampleEnv (Promise.resolved serverErrorResponse)) Method.POST
    "https://example.org/a" none [] serverErrorResponse "oops" rfl rfl rfl (by decide)

/-- Counterexample to C3 as first stated (without the proviso that the body text
is read): the transport answers
with a response whose `ok` is false, whose status is 500 and whose `text()`
rejects; the run resolves with `left` of the raw error, not of a
`BadResponse`. -/
theorem request_other_is_badResponse_counterexample :
    broken500Response.ok = false ∧ broken500Response.status ≠ 404 ∧
      (sampleEnv (Promise.resolved broken500Response)).transport [] "https://example.org/a"
          (spreadMethod none Method.POST) = Promise.resolved broken500Response ∧
      (runRequest (sampleEnv (Promise.resolved broken500Response)) Method.POST
          "https://example.org/a" none []).1 =
        Promise.resolved (Either.left (Thrown.error ⟨"TypeError", "network error"⟩)) ∧
      ¬ ∃ r : BadResponse,
        (runRequest (sampleEnv (Promise.resolved broken500Response)) Method.POST
          "https://example.org/a" none []).1 =
          Promise.resolved (Either.left (Thrown.appy (AppyError.badResponse r))) := by
  refine ⟨rfl, by decide, rfl, rfl, ?_⟩
  rintro ⟨r, h⟩
  have hrun : (runRequest (sampleEnv (Promise.resolved broken500Response)) Method.POST
      "https://example.org/a" none []).1 =
      Promise.resolved (Either.left (Thrown.error ⟨"TypeError", "network error"⟩)) := rfl
  rw [hrun] at h
  cases h

/-- C4: when the transport call itself fails with an error `e`, running
`request(method, uri, options)` resolves with `left` of a `NetworkError` whose
`message` is `e.message` and whose `uri` is the `uri` given to `request`. -/
theorem request_transport_failure_is_networkError (env : Env) (method : Method) (uri : String)
    (options : Option RequestInit) (log : List FetchCall) (e : JsError)
    (hfetch : env.transport log uri (spreadMethod options method) = Promise.rejected e) :
    (runRequest env method uri options log).1 =
      Promise.resolved (Either.left (Thrown.appy (AppyError.networkError
        { message := e.message
          uri := uri }))) := by
  simp [runRequest, request, fetch, bind, pure, StateT.bind, StateT.pure, hfetch,
    Promise.then2, Promise.then_, Promise.catch_]

theorem request_transport_failure_is_networkError_witness :
    (runRequest (sampleEnv (Promise.rejected ⟨"TypeError", "Failed to fetch"⟩)) Method.GET
        "https://example.org/a" none []).1 =
      Promise.resolved (Either.left (Thrown.appy (AppyError.networkError
        { message := "Failed to fetch"
          uri := "https://example.org/a" }))) :=
  request_transport_failure_is_networkError
    (sampleEnv (Promise.rejected ⟨"TypeError", "Failed to fetch"⟩)) Method.GET
    "https://example.org/a" none [] ⟨"TypeError", "Failed to fetch"⟩ rfl

/-- C5: `parseBody(t)` always returns: the value `JSON.parse(t)` gives when it gives
one, the string `t` itself when `JSON.parse(t)` throws; and whenever a run of
`request` ends with an outcome that carries a normalised response (success,
`BadUrl` or `BadResponse`), the transport answered with a response whose body
text `t` was read, and the body of the normalised response is
`parseBody(t)`. -/
theorem parseBody_fallback_and_body (env : Env) :
    (∀ t v, env.jsonParse t = Except.ok v → parseBody env t = Except.ok v) ∧
    (∀ t e, env.jsonParse t = Except.error e → parseBody env t = Except.ok (JSValue.str t)) ∧
    (∀ method uri options log out r,
      (runRequest env method uri options log).1 = Promise.resolved out →
      out.response? = some r →
      ∃ resp t, env.transport log uri (spreadMethod options method) = Promise.resolved resp ∧
        resp.text = Promise.resolved t ∧ parseBody env t = Except.ok r.body) := by
  refine ⟨fun t v h => by rw [parseBody_eq, h], fun t e h => by rw [parseBody_eq, h], ?_⟩
  intro method uri options log out r hrun hresp
  cases hfetch : env.transport log uri (spreadMethod options method) with
  | rejected e =>
    rw [runRequest_of_rejected env method uri options log e hfetch] at hrun
    cases hrun
    simp [Either.response?] at hresp
  | resolved resp =>
    cases htext : resp.text with
    | rejected e =>
      rw [runRequest_of_text_rejected env method uri options log resp e hfetch htext] at hrun
      cases hrun
      simp [Either.response?] at hresp
    | resolved t =>
      refine ⟨resp, t, rfl, htext, ?_⟩
      rw [runRequest_of_text_resolved env method uri options log resp t _ hfetch htext
        (parseBody_eq env t)] at hrun
      rw [parseBody_eq]
      split at hrun
      · cases hrun
        simp [Either.response?] at hresp
        subst hresp
        rfl
      · split at hrun
        · cases hrun
          simp [Either.response?] at hresp
          subst hresp
          rfl
        · cases hrun
          simp [Either.response?] at hresp
          subst hresp
          rfl

theorem parseBody_fallback_and_body_witness :
    parseBody (sampleEnv (Promise.resolved notFoundResponse)) "\x7b\"a\":1\x7d" =
        Except.ok (JSValue.obj [("a", JSValue.num 1)]) ∧
      parseBody (sampleEnv (Promise.resolved notFoundResponse)) "not found" =
        Except.ok (JSValue.str "not found") ∧
      ∃ resp t,
        (sampleEnv (Promise.resolved notFoundResponse)).transport [] "https://example.org/a"
            (spreadMethod none Method.GET) = Promise.resolved resp ∧
          resp.text = Promise.resolved t ∧
          parseBody (sampleEnv (Promise.resolved notFoundResponse)) t =
            Except.ok (JSValue.str "not found") :=
  ⟨(parseBody_fallback_and_body (sampleEnv (Promise.resolved notFoundResponse))).1
      "\x7b\"a\":1\x7d" (JSValue.obj [("a", JSValue.num 1)]) rfl,
    (parseBody_fallback_and_body (sampleEnv (Promise.resolved notFoundResponse))).2.1
      "not found" ⟨"SyntaxError", "Unexpected token"⟩ rfl,
    (parseBody_fallback_and_body (sampleEnv (Promise.resolved notFoundResponse))).2.2
      Method.GET "https://example.org/a" none []
      (Either.left (Thrown.appy (AppyError.badUrl
        ⟨"https://example.org/a",
          ⟨toHeadersMap notFoundResponse.headers, 404, "Not Found",
            "https://example.org/moved", JSValue.str "not found"⟩⟩)))
      ⟨toHeadersMap notFoundResponse.headers, 404, "Not Found",
        "https://example.org/moved", JSValue.str "not found"⟩ rfl rfl⟩

/-- C6, the code on the case the claim gets wrong: when the transport answers with a
response (whatever its `ok` and status) whose `text()` rejects with an error
`e`, running `request` resolves with `left` of `e` itself, which is none of
`NetworkError`, `BadUrl`, `BadResponse`. -/
theorem request_body_read_failure_is_raw_left (env : Env) (method : Method) (uri : String)
    (options : Option RequestInit) (log : List FetchCall) (resp : Response) (e : JsError)
    (hfetch : env.transport log uri (spreadMethod options method) = Promise.resolved resp)
    (htext : resp.text = Promise.rejected e) :
    (runRequest env method uri options log).1 =
        Promise.resolved (Either.left (Thrown.error e)) ∧
      ∀ a : AppyError, Thrown.error e ≠ Thrown.appy a :=
  ⟨runRequest_of_text_rejected env method uri options log resp e hfetch htext,
    fun _ h => by cases h⟩

theorem request_body_read_failure_is_raw_left_witness :
    (runRequest (sampleEnv (Promise.resolved brokenBodyResponse)) Method.GET
          "https://example.org/a" none []).1 =
        Promise.resolved
          (Either.left (Thrown.error ⟨"TypeError", "network error"⟩)) ∧
      ∀ a : AppyError,
        Thrown.error ⟨"TypeError", "network error"⟩ ≠ Thrown.appy a :=
  request_body_read_failure_is_raw_left (sampleEnv (Promise.resolved brokenBodyResponse))
    Method.GET "https://example.org/a" none [] brokenBodyResponse
    ⟨"TypeError", "network error"⟩ rfl rfl

/-- C7: for every host and transport (the call fails, the body cannot be read, or any
response comes back), every method, uri, options and call log, running
`request(method, uri, options)` gives a resolved promise, never a rejected
one, and the value it resolves with is exactly one of `left` and `right`. -/
theorem request_always_resolves (env : Env) (method : Method) (uri : String)
    (options : Option RequestInit) (log : List FetchCall) :
    ∃ out, (runRequest env method uri options log).1 = Promise.resolved out ∧
      (((∃ e, out = Either.left e) ∧ ¬ ∃ r, out = Either.right r) ∨
        ((∃ r, out = Either.right r) ∧ ¬ ∃ e, out = Either.left e)) := by
  suffices h : ∃ out, (runRequest env method uri options log).1 = Promise.resolved out by
    obtain ⟨out, hout⟩ := h
    exact ⟨out, hout, either_one_arm out⟩
  cases hfetch : env.transport log uri (spreadMethod options method) with
  | rejected e => exact ⟨_, runRequest_of_rejected env method uri options log e hfetch⟩
  | resolved resp =>
    cases htext : resp.text with
    | rejected e =>
      exact ⟨_, runRequest_of_text_rejected env method uri options log resp e hfetch htext⟩
    | resolved t =>
      rw [runRequest_of_text_resolved env method uri options log resp t _ hfetch htext
        (parseBody_eq env t)]
      split
      · exact ⟨_, rfl⟩
      · split
        · exact ⟨_, rfl⟩
        · exact ⟨_, rfl⟩

/-! ## The client factory -/

/-- C8: when `config` is `undefined` or `null`, or its `baseUri` is `undefined` or
`null`, the function the factory returns, called with any method, path, token
and options, returns a promise rejected with `{error: CONFIG_REJECT}` and
leaves the log of calls of `request` as it was. -/
theorem api_without_base_rejects {R : Type} (deps : Api.Deps R) (config : JSValue)
    (h : config = JSValue.undefined ∨ config = JSValue.null ∨
      config.getProp "baseUri" = JSValue.undefined ∨ config.getProp "baseUri" = JSValue.null)
    (method path token options : JSValue) (log : List Api.RequestCall) :
    Api.api deps config method path token options log =
      (Except.ok (Promise.rejected (JSValue.obj [("error", deps.CONFIG_REJECT)])), log) := by
  have hnone : (Api.fromNullable config).bind (Api.compRequest deps) = none := by
    rcases h with h | h | h | h
    · subst h; rfl
    · subst h; rfl
    · exact fromNullable_bind_none deps config (by rw [h]; rfl)
    · exact fromNullable_bind_none deps config (by rw [h]; rfl)
  unfold Api.api
  rw [hnone]
  rfl

theorem api_without_base_rejects_witness :
    Api.api sampleDeps (JSValue.obj []) (JSValue.str "GET") (JSValue.str "/users")
        (JSValue.str "token") JSValue.undefined [] =
        (Except.ok (Promise.rejected (JSValue.obj [("error", JSValue.str "CONFIG_REJECT")])),
          []) ∧
      Api.api sampleDeps JSValue.undefined (JSValue.str "POST") JSValue.null
        JSValue.undefined JSValue.undefined [] =
        (Except.ok (Promise.rejected (JSValue.obj [("error", JSValue.str "CONFIG_REJECT")])),
          []) :=
  ⟨api_without_base_rejects sampleDeps (JSValue.obj []) (Or.inr (Or.inr (Or.inl rfl)))
      (JSValue.str "GET") (JSValue.str "/users") (JSValue.str "token") JSValue.undefined [],
    api_without_base_rejects sampleDeps JSValue.undefined (Or.inl rfl)
      (JSValue.str "POST") JSValue.null JSValue.undefined JSValue.undefined []⟩

/-- C9: when `config.baseUri` is a string `b`, the client function called with a path
`p` evaluates `concatStrings([b, p])` and, with the uri it returns, makes
exactly one call of `request`.  That uri is `b` followed by `String(p)` with
nothing in between whenever `String(p)` returns, so it is `b ++ s` for `p` the
string `s`; it is `b` alone when `p` is `undefined` or `null`.  In general
`concatStrings(xs)` is the in-order concatenation of `String(x)` over the
elements of `xs` that are neither `undefined` nor `null`.  (Where `String(p)`
throws, `concatStrings` throws the same error and no call is made.) -/
theorem api_uri_is_concatenation {R : Type} (deps : Api.Deps R) (config : JSValue) (b : String)
    (hb : config.getProp "baseUri" = JSValue.str b)
    (method path token options : JSValue) (log : List Api.RequestCall) :
    (∀ address : String,
      Api.concatStrings deps.numberToString [JSValue.str b, path] = Except.ok address →
      Api.api deps config method path token options log =
        (Except.ok (deps.requestResult log method address
            (deps.headers
              (JSValue.obj [("version", config.getProp "version"),
                ("id", config.getProp "id"), ("token", token)]) options)),
          log ++ [⟨method, address,
            deps.headers
              (JSValue.obj [("version", config.getProp "version"),
                ("id", config.getProp "id"), ("token", token)]) options⟩])) ∧
      (∀ s : String, JSValue.jsString deps.numberToString path = Except.ok s →
        path ≠ JSValue.undefined → path ≠ JSValue.null →
        Api.concatStrings deps.numberToString [JSValue.str b, path] = Except.ok (b ++ s)) ∧
      (path = JSValue.undefined ∨ path = JSValue.null →
        Api.concatStrings deps.numberToString [JSValue.str b, path] = Except.ok b) ∧
      (∀ p : String, path = JSValue.str p →
        Api.concatStrings deps.numberToString [JSValue.str b, path] = Except.ok (b ++ p)) ∧
      (∀ (f : Int → String) (xs : List JSValue),
        Api.concatStrings f xs = Api.concatSpec f xs) ∧
      (∀ e : JsError,
        Api.concatStrings deps.numberToString [JSValue.str b, path] = Except.error e →
        Api.api deps config method path token options log = (Except.error e, log)) := by
  have hc : Api.fromNullable config = some config := by
    cases config <;> simp [JSValue.getProp] at hb
    rfl
  have hapi : Api.api deps config method path token options log =
      (match Api.concatStrings deps.numberToString [JSValue.str b, path] with
        | Except.error e => pure (Except.error e)
        | Except.ok address => do
          let promise ← Api.callRequest deps method address
            (deps.headers
              (JSValue.obj [("version", config.getProp "version"),
                ("id", config.getProp "id"), ("token", token)]) options)
          pure (Except.ok promise)) log := by
    unfold Api.api
    rw [hc]
    simp only [Option.bind, Api.compRequest, hb, Api.fromNullable, JSValue.isNullish]
    rfl
  refine ⟨?_, ?_, ?_, ?_, concatStrings_eq_concatSpec, ?_⟩
  · intro address h
    rw [hapi, h]
    rfl
  · intro s hs h1 h2
    rw [concatStrings_pair, hs]
    cases path <;> simp_all [JSValue.isNullish, Except.map]
  · rintro (h | h) <;> subst h <;> rw [concatStrings_pair] <;> simp [JSValue.isNullish]
  · intro p h
    subst h
    rw [concatStrings_pair]
    simp [JSValue.isNullish, JSValue.jsString, Except.map, pure, Except.pure]
  · intro e h
    rw [hapi, h]
    rfl

theorem api_uri_is_concatenation_witness :
    (Api.api sampleDeps (JSValue.obj [("baseUri", JSValue.str "https://api.example.com")])
        (JSValue.str "GET") (JSValue.str "/users") JSValue.undefined JSValue.undefined []).2.map
        (fun c => c.uri) = ["https://api.example.com/users"] ∧
      Api.concatStrings sampleDeps.numberToString
        [JSValue.str "https://api.example.com", JSValue.null] =
        Except.ok "https://api.example.com" := by
  have h := api_uri_is_concatenation sampleDeps
    (JSValue.obj [("baseUri", JSValue.str "https://api.example.com")])
    "https://api.example.com" rfl (JSValue.str "GET") (JSValue.str "/users")
    JSValue.undefined JSValue.undefined []
  have h2 := api_uri_is_concatenation sampleDeps
    (JSValue.obj [("baseUri", JSValue.str "https://api.example.com")])
    "https://api.example.com" rfl (JSValue.str "GET") JSValue.null
    JSValue.undefined JSValue.undefined []
  refine ⟨?_, h2.2.2.1 (Or.inr rfl)⟩
  rw [h.1 "https://api.example.com/users" rfl]
  decide

/-! ## Laziness -/

/-- C10: with the transport's call log as state, building `request(m, u, o)` leaves
the log as it was; each `run()` of the task it returns appends exactly one
call, `fetch(u, {...o, method: m})`, whatever the log holds by then; and `n`
runs in a row append exactly `n` such calls. -/
theorem request_is_lazy_one_call_per_run (env : Env) (method : Method) (uri : String)
    (options : Option RequestInit) (log : List FetchCall) :
    (request env method uri options log).2 = log ∧
    (∀ log2 : List FetchCall, ((request env method uri options log).1.run log2).2 =
      log2 ++ [⟨uri, spreadMethod options method⟩]) ∧
    (∀ (n : Nat) (log2 : List FetchCall),
      ((request env method uri options log).1.runTimes n log2).2 =
        log2 ++ List.replicate n ⟨uri, spreadMethod options method⟩) := by
  refine ⟨rfl, fun _ => rfl, ?_⟩
  intro n
  induction n with
  | zero =>
    intro log2
    simp [Task.runTimes, pure, StateT.pure]
  | succ n ih =>
    intro log2
    have hstep : ((request env method uri options log).1.runTimes (n + 1) log2).2 =
        ((request env method uri options log).1.runTimes n
          (log2 ++ [⟨uri, spreadMethod options method⟩])).2 := rfl
    rw [hstep, ih, List.replicate_succ, List.append_assoc]
    rfl

/-! ## Options, wrappers, headers -/

/-- C11: running `request(m, u, o)` makes exactly the transport call with address `u` and
the options bag `{...o, method: m}`; reading `method` in that bag gives `m`
(whatever `o` held under that name), reading any other name gives what `o`
gives (nothing when `o` is omitted), and the entries of the bag under names
other than `method` are those of `o`, in the same order. -/
theorem request_passes_options_with_method (env : Env) (method : Method) (uri : String)
    (options : Option RequestInit) (log : List FetchCall) :
    (runRequest env method uri options log).2 =
        log ++ [⟨uri, spreadMethod options method⟩] ∧
      JSValue.getProp (JSValue.obj (spreadMethod options method)) "method" =
        JSValue.str method.toString ∧
      (∀ k : String, k ≠ "method" →
        JSValue.getProp (JSValue.obj (spreadMethod options method)) k =
          JSValue.getProp (JSValue.obj (options.getD [])) k) ∧
      (spreadMethod options method).filter (fun e => e.1 != "method") =
        (options.getD []).filter (fun e => e.1 != "method") := by
  refine ⟨rfl, ?_, ?_, ?_⟩
  · unfold spreadMethod
    rw [getProp_setProp]
    simp
  · intro k hk
    unfold spreadMethod
    rw [getProp_setProp]
    simp [hk]
  · unfold spreadMethod setProp
    exact filter_update _ _ _

theorem request_passes_options_with_method_witness :
    JSValue.getProp
        (JSValue.obj
          (spreadMethod
            (some [("headers", JSValue.obj [("accept", JSValue.str "text/plain")]),
              ("method", JSValue.str "POST"), ("body", JSValue.str "x")])
            Method.PUT)) "body" =
      JSValue.getProp
        (JSValue.obj
          ((some [("headers", JSValue.obj [("accept", JSValue.str "text/plain")]),
            ("method", JSValue.str "POST"), ("body", JSValue.str "x")]).getD [])) "body" :=
  (request_passes_options_with_method
    (sampleEnv (Promise.resolved okResponse)) Method.PUT "https://example.org/a"
    (some [("headers", JSValue.obj [("accept", JSValue.str "text/plain")]),
      ("method", JSValue.str "POST"), ("body", JSValue.str "x")]) []).2.2.1
    "body" (by decide)

/-- C12: for every uri and options, `get`, `post`, `put`, `patch` and `del` are
`request` with the method `GET`, `POST`, `PUT`, `PATCH` and `DELETE`, and
running the task each builds gives, for every host, transport and call log,
the same outcome and the same log as running the task `request` builds. -/
theorem wrappers_are_request (env : Env) (uri : String) (options : Option RequestInit) :
    (Appy.get env uri options = request env Method.GET uri options ∧
      Appy.post env uri options = request env Method.POST uri options ∧
      Appy.put env uri options = request env Method.PUT uri options ∧
      Appy.patch env uri options = request env Method.PATCH uri options ∧
      Appy.del env uri options = request env Method.DELETE uri options) ∧
    ∀ log : List FetchCall,
      runBuilt (Appy.get env uri options) log = runRequest env Method.GET uri options log ∧
      runBuilt (Appy.post env uri options) log = runRequest env Method.POST uri options log ∧
      runBuilt (Appy.put env uri options) log = runRequest env Method.PUT uri options log ∧
      runBuilt (Appy.patch env uri options) log =
        runRequest env Method.PATCH uri options log ∧
      runBuilt (Appy.del env uri options) log =
        runRequest env Method.DELETE uri options log :=
  ⟨⟨rfl, rfl, rfl, rfl, rfl⟩, fun _ => ⟨rfl, rfl, rfl, rfl, rfl⟩⟩

/-- C13, the code on the case the claim gets wrong, and what holds beside it: a header
named `__proto__` is yielded by the collection and is not a key of the result;
the keys of `toHeadersMap(hs)` are the yielded names other than `__proto__`;
when the yielded names are pairwise distinct, a name other than `__proto__`
is mapped to `v` exactly when the entry `(name, v)` is yielded, and any
permutation of the entries gives a map with the same reads. -/
theorem toHeadersMap_keys_values_order :
    (toHeadersMap [("content-type", "text/plain"), ("__proto__", "x")] =
        [("content-type", "text/plain")]) ∧
    (∀ (hs : Headers) (k : String),
      k ∈ (toHeadersMap hs).map Prod.fst ↔ k ∈ hs.map Prod.fst ∧ k ≠ "__proto__") ∧
    (∀ hs : Headers, (hs.map Prod.fst).Nodup → ∀ k v : String, k ≠ "__proto__" →
      ((toHeadersMap hs).get? k = some v ↔ (k, v) ∈ hs)) ∧
    (∀ hs hs2 : Headers, hs.Perm hs2 → (hs.map Prod.fst).Nodup → ∀ k : String,
      (toHeadersMap hs).get? k = (toHeadersMap hs2).get? k) :=
  ⟨by decide, toHeadersMap_keys,
    fun hs hnd k v hk => toHeadersMap_get?_iff hs hnd k v hk,
    fun hs hs2 hp hnd k => toHeadersMap_perm hs hs2 hp hnd k⟩

theorem toHeadersMap_keys_values_order_witness :
    ((toHeadersMap [("etag", "1"), ("vary", "accept")]).get? "vary" = some "accept" ↔
        ("vary", "accept") ∈ [("etag", "1"), ("vary", "accept")]) ∧
      (toHeadersMap [("etag", "1"), ("vary", "accept")]).get? "etag" =
        (toHeadersMap [("vary", "accept"), ("etag", "1")]).get? "etag" :=
  ⟨toHeadersMap_keys_values_order.2.2.1 [("etag", "1"), ("vary", "accept")] (by decide)
      "vary" "accept" (by decide),
    toHeadersMap_keys_values_order.2.2.2 [("etag", "1"), ("vary", "accept")]
      [("vary", "accept"), ("etag", "1")] (List.Perm.swap _ _ _) (by decide) "etag"⟩

/-! ## The test helper -/

/-- C14: for every data, success and status, the mock `response(data, success, status)`
has `ok` equal to `success` and `text()` and `json()` resolving to `data`; with
`success` a boolean, its `status` is the given status when that is a number
other than 0, and otherwise (status omitted, or 0) 200 when `success` is true
and 500 when it is false. -/
theorem response_mock_fields (data success status : JSValue) :
    (Helpers.response data success status).ok = success ∧
    (Helpers.response data success status).text = Promise.resolved data ∧
    (Helpers.response data success status).json = Promise.resolved data ∧
    (∀ n : Int, status = JSValue.num n → n ≠ 0 →
      (Helpers.response data success status).status = JSValue.num n) ∧
    (status = JSValue.undefined ∨ status = JSValue.num 0 → success = JSValue.bool true →
      (Helpers.response data success status).status = JSValue.num 200) ∧
    (status = JSValue.undefined ∨ status = JSValue.num 0 → success = JSValue.bool false →
      (Helpers.response data success status).status = JSValue.num 500) := by
  refine ⟨rfl, rfl, rfl, ?_, ?_, ?_⟩
  · intro n hs hn
    subst hs
    simp [Helpers.response, JSValue.truthy, hn]
  · rintro (hs | hs) hb <;> subst hs <;> subst hb <;> rfl
  · rintro (hs | hs) hb <;> subst hs <;> subst hb <;> rfl

theorem response_mock_fields_witness :
    (Helpers.response (JSValue.str "not found") (JSValue.bool false) (JSValue.num 404)).status =
        JSValue.num 404 ∧
      (Helpers.response (JSValue.str "ok") (JSValue.bool true) JSValue.undefined).status =
        JSValue.num 200 ∧
      (Helpers.response (JSValue.str "no") (JSValue.bool false) (JSValue.num 0)).status =
        JSValue.num 500 :=
  ⟨(response_mock_fields (JSValue.str "not found") (JSValue.bool false)
      (JSValue.num 404)).2.2.2.1 404 rfl (by decide),
    (response_mock_fields (JSValue.str "ok") (JSValue.bool true)
      JSValue.undefined).2.2.2.2.1 (Or.inl rfl) rfl,
    (response_mock_fields (JSValue.str "no") (JSValue.bool false)
      (JSValue.num 0)).2.2.2.2.2 (Or.inr rfl) rfl⟩

end Appy
